import Mathlib

/-!
Shallow embedding of the 3dviewer panorama application, covering the two
source variants: the append-policy variant (`src/main.js`, namespace `Main`)
and the replace-policy variant (`src/unnamed/part_000`, namespace `Var`).
DOM and three.js objects are modelled by explicit state records; object URLs,
geometries and materials are modelled by allocation counters.
-/

namespace Viewer

/-- A user-supplied file handle; only its name is observable to the logic. -/
structure SrcFile where
  name : String
  deriving DecidableEq, Repr

/-- A Scene Catalog entry, `{ name, file, url }` in both variants.
`url` models the object URL returned by `URL.createObjectURL(file)`
as an allocation id. -/
structure SceneEntry where
  name : String
  file : SrcFile
  url : Nat
  deriving DecidableEq, Repr

/-- Texture mapping mode (three.js `texture.mapping`); loaders produce
`uv` (the three.js default `UVMapping`). -/
inductive Mapping where
  | uv
  | equirectangular
  deriving DecidableEq, Repr

/-- Texture color space (three.js `texture.colorSpace`). -/
inductive ColorSpace where
  | noColor
  | srgb
  | linear
  deriving DecidableEq, Repr

/-- A decoded texture as the completion callbacks see it. -/
structure Texture where
  id : Nat
  mapping : Mapping
  colorSpace : ColorSpace
  deriving DecidableEq, Repr

/-- Which decoder a load is dispatched to. -/
inductive DecodePath where
  | hdr
  | generic
  deriving DecidableEq, Repr

/-- A decode request as issued to a loader: captured name, captured url,
and the chosen decoder. -/
structure DecodeRequest where
  name : String
  url : Nat
  path : DecodePath
  deriving DecidableEq, Repr

/-- A decode failure; `message` is `none` when the error object carries no
message (JS `undefined`). -/
structure DecodeError where
  message : Option String
  deriving DecidableEq, Repr

/-- The sphere mesh built by `createSphere`: geometry and material are
allocation ids, `map` is the texture (`material.map`), `color` the material
color (`0xffffff` with a texture, `0x333333` without). -/
structure Sphere where
  geometryId : Nat
  materialId : Nat
  map : Option Texture
  color : Nat
  deriving DecidableEq, Repr

/-- JS `String.prototype.split('.')` on the character list: splits at every
dot, keeping empty segments, and yields at least one segment. -/
def splitOnDotAux : List Char → List Char → List (List Char)
  | [], acc => [acc.reverse]
  | c :: rest, acc =>
      if c = '.' then acc.reverse :: splitOnDotAux rest []
      else splitOnDotAux rest (c :: acc)

/-- `sceneData.name.split('.').pop().toLowerCase()` from `loadScene`
(ASCII lowering, which is all the dispatch comparison needs). -/
def extensionOf (name : String) : String :=
  String.mk (((splitOnDotAux name.data []).getLastD []).map Char.toLower)

/-- `if (extension === 'hdr')` branch of `loadScene`: `.hdr` goes to the
`RGBELoader`, every other extension to the generic `TextureLoader`. -/
def dispatch (name : String) : DecodePath :=
  if extensionOf name = "hdr" then DecodePath.hdr else DecodePath.generic

/-- The decode request `loadScene` hands to the chosen loader, built from the
captured entry. -/
def mkRequest (e : SceneEntry) : DecodeRequest :=
  { name := e.name, url := e.url, path := dispatch e.name }

/-- `` `Error loading image: ${err.message || 'Invalid format'}` `` from
`onError`; JS `||` falls back on a missing or empty message. -/
def errorAlertText (err : DecodeError) : String :=
  "Error loading image: " ++
    (match err.message with
      | some m => if m = "" then "Invalid format" else m
      | none => "Invalid format")

/-! ## Application state

One record covers both variants; fields a variant does not touch simply stay
constant under its operations (main.js has no transition overlay and no
timers, so those fields never change under `Main` operations). -/

structure AppState where
  scenes : List SceneEntry
  currentSceneIndex : Int
  nextUrl : Nat
  revokedUrls : List Nat
  sphereMesh : Option Sphere
  nextGeom : Nat
  nextMat : Nat
  disposedGeoms : List Nat
  disposedMats : List Nat
  disposedTexs : List Nat
  loadingShown : Bool
  transitionActive : Bool
  alerts : List String
  pendingTimers : List (SceneEntry × Nat)
  issuedDecodes : List DecodeRequest
  deriving DecidableEq, Repr

/-- State before `init()` runs: empty catalog, no sphere, nothing allocated. -/
def blankState : AppState where
  scenes := []
  currentSceneIndex := -1
  nextUrl := 0
  revokedUrls := []
  sphereMesh := none
  nextGeom := 0
  nextMat := 0
  disposedGeoms := []
  disposedMats := []
  disposedTexs := []
  loadingShown := false
  transitionActive := false
  alerts := []
  pendingTimers := []
  issuedDecodes := []

/-- `createSphere(texture = null)` (identical in both variants): dispose the
previous mesh's geometry, its material's map if present, and its material,
then build a fresh inward-facing sphere whose material maps the given texture,
white when textured and `0x333333` (flat neutral) otherwise. -/
def createSphere (st : AppState) (texture : Option Texture) : AppState :=
  let st1 :=
    match st.sphereMesh with
    | some mesh =>
        { st with
          disposedGeoms := st.disposedGeoms ++ [mesh.geometryId]
          disposedTexs := st.disposedTexs ++
            (match mesh.map with | some t => [t.id] | none => [])
          disposedMats := st.disposedMats ++ [mesh.materialId] }
    | none => st
  { st1 with
    sphereMesh := some
      { geometryId := st1.nextGeom
        materialId := st1.nextMat
        map := texture
        color := if texture.isSome then 0xffffff else 0x333333 }
    nextGeom := st1.nextGeom + 1
    nextMat := st1.nextMat + 1 }

/-- State after `init()`: `init` calls `createSphere()` once as the initial
placeholder. -/
def appInit : AppState := createSphere blankState none

/-- The texture of the current sphere mesh, if any. -/
def surfaceMapOf (st : AppState) : Option Texture :=
  st.sphereMesh.bind (fun s => s.map)

/-- The mapping mode of the current sphere mesh's texture, if any. -/
def surfaceMappingOf (st : AppState) : Option Mapping :=
  (surfaceMapOf st).map (fun t => t.mapping)

/-- Geometry id of the current mesh. -/
def meshGeom (st : AppState) : Option Nat :=
  st.sphereMesh.map (fun s => s.geometryId)

/-- Material id of the current mesh. -/
def meshMat (st : AppState) : Option Nat :=
  st.sphereMesh.map (fun s => s.materialId)

/-- Texture id mapped by the current mesh, if it has one. -/
def meshTexId (st : AppState) : Option Nat :=
  (surfaceMapOf st).map (fun t => t.id)

/-! ## Viewport Controller (identical in both variants)

`camera.fov` and the pinch-tracking variables of `init`. Wheel deltas and
touch distances are modelled as rationals; the pinch distance
`Math.sqrt(dx*dx + dy*dy)` is abstracted as an arbitrary rational parameter
of the event, which only enlarges the set of behaviours quantified over. -/

structure ViewportState where
  fov : ℚ
  initialPinchDistance : Option ℚ
  initialFov : Option ℚ

/-- Default camera: `new THREE.PerspectiveCamera(75, ...)`, pinch vars null. -/
def viewportInit : ViewportState where
  fov := 75
  initialPinchDistance := none
  initialFov := none

/-- The wheel / touch events reaching the canvas listeners. `touchstartTwo`
and `touchmoveTwo` carry the distance between the two touches; the `Other`
events are touches with a touch count different from two. -/
inductive InputEvent where
  | wheel (deltaY : ℚ)
  | touchstartTwo (dist : ℚ)
  | touchstartOther
  | touchmoveTwo (dist : ℚ)
  | touchmoveOther
  | touchend

/-- The canvas `wheel` / `touchstart` / `touchmove` / `touchend` listeners.
Wheel: `camera.fov += event.deltaY * 0.05` then clamp via
`Math.max(30, Math.min(100, fov))`. Touchmove with an active pinch:
`newFov = initialFov + (initialPinchDistance - currentDistance) * 0.2`
clamped the same way; a null `initialFov` coerces to 0 as in JS. -/
def handleEvent (st : ViewportState) (e : InputEvent) : ViewportState :=
  match e with
  | InputEvent.wheel d =>
      { st with fov := max 30 (min 100 (st.fov + d * (0.05 : ℚ))) }
  | InputEvent.touchstartTwo dist =>
      { st with initialPinchDistance := some dist, initialFov := some st.fov }
  | InputEvent.touchstartOther => st
  | InputEvent.touchmoveTwo dist =>
      match st.initialPinchDistance with
      | some d0 =>
          { st with
            fov := max 30 (min 100 (st.initialFov.getD 0 + (d0 - dist) * (0.2 : ℚ))) }
      | none => st
  | InputEvent.touchmoveOther => st
  | InputEvent.touchend => { st with initialPinchDistance := none }

/-- Run an event sequence from the default camera state. -/
def runViewport (es : List InputEvent) : ViewportState :=
  es.foldl handleEvent viewportInit

/-! ## Append-policy variant (`src/main.js`) -/

namespace Main

/-- `loadScene(index)` of main.js: return unchanged when the index is out of
`[0, length)`; otherwise set `currentSceneIndex`, show the loading overlay,
and hand the captured entry's url to the loader chosen by the entry name's
extension (the load request is issued synchronously). -/
def loadScene (st : AppState) (index : Int) : AppState :=
  if h : 0 ≤ index ∧ index < (st.scenes.length : Int) then
    let entry := st.scenes.get ⟨index.toNat, by omega⟩
    { st with
      currentSceneIndex := index
      loadingShown := true
      issuedDecodes := st.issuedDecodes ++ [mkRequest entry] }
  else st

/-- `handleFileUpload(event)` of main.js: ignore an empty selection; build an
entry per file with the original filename and a fresh object URL, append to
the catalog, and load the first new entry only when nothing was active. -/
def handleFileUpload (st : AppState) (files : List SrcFile) : AppState :=
  if files.isEmpty then st
  else
    let newScenes := files.mapIdx (fun i f =>
      { name := f.name, file := f, url := st.nextUrl + i : SceneEntry })
    let startIndex := st.scenes.length
    let st1 := { st with
      scenes := st.scenes ++ newScenes
      nextUrl := st.nextUrl + files.length }
    if st1.currentSceneIndex = -1 then loadScene st1 (startIndex : Int) else st1

/-- main.js `onLoad` (generic image path): set equirectangular mapping and
sRGB color space on the texture, rebuild the sphere with it, hide loading. -/
def onLoadGeneric (st : AppState) (texture : Texture) : AppState :=
  let t := { texture with
    mapping := Mapping.equirectangular, colorSpace := ColorSpace.srgb }
  { createSphere st (some t) with loadingShown := false }

/-- main.js HDR success callback: the texture is passed to `createSphere`
unmodified (no mapping, no color space assignment), then loading is hidden. -/
def onLoadHdr (st : AppState) (texture : Texture) : AppState :=
  { createSphere st (some texture) with loadingShown := false }

/-- main.js `onError`: alert with the failure message (or fallback), hide the
loading overlay; nothing else is touched. -/
def onError (st : AppState) (err : DecodeError) : AppState :=
  { st with
    alerts := st.alerts ++ [errorAlertText err]
    loadingShown := false }

end Main

/-! ## Replace-policy variant (`src/unnamed/part_000`) -/

namespace Var

/-- `loadScene(index)` of the replace variant: return unchanged when the index
is out of `[0, length)`; otherwise set `currentSceneIndex`, activate the
transition overlay, and schedule the decode of the captured entry behind a
`setTimeout(..., 500)` — no decode is issued before the timer fires. -/
def loadScene (st : AppState) (index : Int) : AppState :=
  if h : 0 ≤ index ∧ index < (st.scenes.length : Int) then
    let entry := st.scenes.get ⟨index.toNat, by omega⟩
    { st with
      currentSceneIndex := index
      transitionActive := true
      pendingTimers := st.pendingTimers ++ [(entry, 500)] }
  else st

/-- The body of the `setTimeout` in the replace variant's `loadScene`: when a
scheduled timer fires, compute the extension from the captured entry's name
and hand the captured url to the chosen loader. Only the captured entry is
consulted — the catalog is not re-read. -/
def fireTimer (st : AppState) : AppState :=
  match st.pendingTimers with
  | [] => st
  | (entry, _) :: rest =>
      { st with
        pendingTimers := rest
        issuedDecodes := st.issuedDecodes ++ [mkRequest entry] }

/-- `handleFileUpload(event)` of the replace variant: ignore an empty
selection; otherwise revoke every existing entry's object URL and clear the
catalog, insert one entry per file named `"Scene N"` with a fresh object URL,
and always load the first entry of the new batch. -/
def handleFileUpload (st : AppState) (files : List SrcFile) : AppState :=
  if files.isEmpty then st
  else
    let st1 :=
      if st.scenes.length > 0 then
        { st with
          revokedUrls := st.revokedUrls ++ st.scenes.map (fun e => e.url)
          scenes := []
          currentSceneIndex := -1 }
      else st
    let newScenes := files.mapIdx (fun i f =>
      { name := "Scene " ++ toString (st1.scenes.length + i + 1)
        file := f
        url := st1.nextUrl + i : SceneEntry })
    let st2 := { st1 with
      scenes := st1.scenes ++ newScenes
      nextUrl := st1.nextUrl + files.length }
    loadScene st2 0

/-- Replace variant `onLoad` (generic image path): set equirectangular mapping
and sRGB color space, rebuild the sphere, then (in the next animation frame)
deactivate the transition overlay and hide loading. -/
def onLoadGeneric (st : AppState) (texture : Texture) : AppState :=
  let t := { texture with
    mapping := Mapping.equirectangular, colorSpace := ColorSpace.srgb }
  { createSphere st (some t) with
    loadingShown := false
    transitionActive := false }

/-- Replace variant HDR success callback: set equirectangular mapping only
(no color-space assignment), rebuild the sphere, clear overlay and loading. -/
def onLoadHdr (st : AppState) (texture : Texture) : AppState :=
  let t := { texture with mapping := Mapping.equirectangular }
  { createSphere st (some t) with
    loadingShown := false
    transitionActive := false }

/-- Replace variant `onError`: alert with the failure message (or fallback),
hide the loading overlay, deactivate the transition overlay. -/
def onError (st : AppState) (err : DecodeError) : AppState :=
  { st with
    alerts := st.alerts ++ [errorAlertText err]
    loadingShown := false
    transitionActive := false }

end Var

/-! ## Derived notions and concrete inputs -/

/-- The Scene Catalog invariant of the spec:
`-1 <= activeIndex < length`. -/
def CatalogInv (st : AppState) : Prop :=
  -1 ≤ st.currentSceneIndex ∧ st.currentSceneIndex < (st.scenes.length : Int)

/-- A batch of rebuild inputs applied to the Panorama Surface in order. -/
def runRebuilds (st : AppState) (ts : List (Option Texture)) : AppState :=
  ts.foldl createSphere st

/-- The texture ids occurring in a rebuild input batch. -/
def texIds (ts : List (Option Texture)) : List Nat :=
  ts.filterMap (fun o => o.map (fun t => t.id))

/-- Color of the current sphere mesh's material. -/
def meshColor (st : AppState) : Option Nat :=
  st.sphereMesh.map (fun s => s.color)

/-- Resource-liveness invariant of the Panorama Surface relative to the
texture ids supplied so far: every disposal record concerns an allocated
geometry/material or a supplied texture, and a resource is live (allocated
or supplied, and not disposed) exactly when the current mesh owns it — so at
most one mesh/material/texture set is ever live. -/
def SurfInv (st : AppState) (supplied : List Nat) : Prop :=
  (∀ g ∈ st.disposedGeoms, g < st.nextGeom)
  ∧ (∀ m ∈ st.disposedMats, m < st.nextMat)
  ∧ (∀ t ∈ st.disposedTexs, t ∈ supplied)
  ∧ (∀ g, (g < st.nextGeom ∧ g ∉ st.disposedGeoms) ↔ meshGeom st = some g)
  ∧ (∀ m, (m < st.nextMat ∧ m ∉ st.disposedMats) ↔ meshMat st = some m)
  ∧ (∀ t, (t ∈ supplied ∧ t ∉ st.disposedTexs) ↔ meshTexId st = some t)

/-- Concrete inputs used by witnesses and failing-input evaluations. -/
def hdrFile : SrcFile := { name := "pano.hdr" }

def jpgFileA : SrcFile := { name := "a.jpg" }

def jpgFileB : SrcFile := { name := "b.jpg" }

/-- A texture as it leaves a loader before any configuration: three.js
textures default to `UVMapping`; `RGBELoader` output is linear. -/
def rawTex : Texture :=
  { id := 7, mapping := Mapping.uv, colorSpace := ColorSpace.linear }

/-! # Theorems -/

/-! ## Viewport: field of view (C2) -/

lemma handleEvent_fov_bounds (st : ViewportState) (e : InputEvent)
    (h1 : 30 ≤ st.fov) (h2 : st.fov ≤ 100) :
    30 ≤ (handleEvent st e).fov ∧ (handleEvent st e).fov ≤ 100 := by
  cases e with
  | wheel d =>
      exact ⟨le_max_left _ _, max_le (by norm_num) (min_le_left _ _)⟩
  | touchstartTwo dist => exact ⟨h1, h2⟩
  | touchstartOther => exact ⟨h1, h2⟩
  | touchmoveTwo dist =>
      cases hd : st.initialPinchDistance with
      | none => simp only [handleEvent, hd]; exact ⟨h1, h2⟩
      | some d0 =>
          simp only [handleEvent, hd]
          exact ⟨le_max_left _ _, max_le (by norm_num) (min_le_left _ _)⟩
  | touchmoveOther => exact ⟨h1, h2⟩
  | touchend => exact ⟨h1, h2⟩

lemma foldl_fov_bounds (es : List InputEvent) (st : ViewportState)
    (h1 : 30 ≤ st.fov) (h2 : st.fov ≤ 100) :
    30 ≤ (es.foldl handleEvent st).fov ∧ (es.foldl handleEvent st).fov ≤ 100 := by
  induction es generalizing st with
  | nil => exact ⟨h1, h2⟩
  | cons e rest ih =>
      have hb := handleEvent_fov_bounds st e h1 h2
      exact ih (handleEvent st e) hb.1 hb.2

/-- C2: starting from the default camera state, after any sequence of wheel
and two-finger pinch events with arbitrary deltas (including extreme values),
the field of view stays within [30, 100]. -/
theorem c2_fov_always_clamped (es : List InputEvent) :
    30 ≤ (runViewport es).fov ∧ (runViewport es).fov ≤ 100 := by
  unfold runViewport
  exact foldl_fov_bounds es viewportInit (by norm_num [viewportInit])
    (by norm_num [viewportInit])

/-! ## Decode dispatch (C1) -/

/-- C1: failing-input evaluation for the replace-policy variant. Adding one
file named `pano.hdr` creates the catalog entry `Scene 1`; when its load
timer fires, the decode is dispatched to the generic image decoder, because
the extension is computed from the synthetic display name `Scene 1` rather
than the filename. The second conjunct shows the file's own name would have
selected the HDR decoder, so the HDR branch is unreachable in this variant. -/
theorem c1_replace_variant_hdr_misdispatch :
    (Var.fireTimer (Var.handleFileUpload appInit [hdrFile])).issuedDecodes
      = [{ name := "Scene 1", url := 0, path := DecodePath.generic }]
    ∧ dispatch hdrFile.name = DecodePath.hdr := by decide

/-! ## Decode failure (C3) -/

/-- C3: on a decode failure (either variant) the alert surfaced carries the
underlying failure message, or the generic fallback when none was given; the
loading indicator ends hidden; the replace variant also deactivates the
transition overlay; `currentSceneIndex`, the catalog and the sphere mesh are
untouched. -/
theorem c3_decode_failure_effects (st : AppState) (err : DecodeError) :
    (Main.onError st err).alerts = st.alerts ++ [errorAlertText err]
  ∧ (Main.onError st err).loadingShown = false
  ∧ (Main.onError st err).currentSceneIndex = st.currentSceneIndex
  ∧ (Main.onError st err).scenes = st.scenes
  ∧ (Main.onError st err).sphereMesh = st.sphereMesh
  ∧ (Var.onError st err).alerts = st.alerts ++ [errorAlertText err]
  ∧ (Var.onError st err).loadingShown = false
  ∧ (Var.onError st err).transitionActive = false
  ∧ (Var.onError st err).currentSceneIndex = st.currentSceneIndex
  ∧ (Var.onError st err).scenes = st.scenes
  ∧ (Var.onError st err).sphereMesh = st.sphereMesh
  ∧ (∀ m, err.message = some m → m ≠ "" →
      errorAlertText err = "Error loading image: " ++ m)
  ∧ (err.message = none →
      errorAlertText err = "Error loading image: Invalid format") := by
  refine ⟨rfl, rfl, rfl, rfl, rfl, rfl, rfl, rfl, rfl, rfl, rfl, ?_, ?_⟩
  · intro m hm hne
    simp [errorAlertText, hm, hne]
  · intro hm
    simp [errorAlertText, hm]

/-- Witness for C3 at a concrete error carrying the message `boom`. -/
theorem c3_decode_failure_effects_witness :
    errorAlertText { message := some "boom" } = "Error loading image: " ++ "boom" := by
  have h := c3_decode_failure_effects appInit { message := some "boom" }
  exact h.2.2.2.2.2.2.2.2.2.2.2.1 "boom" rfl (by decide)

/-! ## Scene selection (C6) -/

/-- C6: in both variants, `loadScene` with an index outside `[0, length)` is
a complete no-op (the state is returned unchanged); with an index inside the
range it sets `currentSceneIndex` to that index and triggers the load (an
immediate decode request in main.js, a scheduled 500ms timer in the replace
variant). The in-range case places no condition on the previously active
index, so re-selecting the active entry re-triggers a full reload. -/
theorem c6_selectScene_guard (st : AppState) (i : Int) :
    (¬ (0 ≤ i ∧ i < (st.scenes.length : Int)) →
        Main.loadScene st i = st ∧ Var.loadScene st i = st)
  ∧ ∀ h : 0 ≤ i ∧ i < (st.scenes.length : Int),
      (Main.loadScene st i).currentSceneIndex = i
    ∧ (Main.loadScene st i).issuedDecodes
        = st.issuedDecodes ++ [mkRequest (st.scenes.get ⟨i.toNat, by omega⟩)]
    ∧ (Var.loadScene st i).currentSceneIndex = i
    ∧ (Var.loadScene st i).pendingTimers
        = st.pendingTimers ++ [(st.scenes.get ⟨i.toNat, by omega⟩, 500)] := by
  constructor
  · intro hn
    constructor
    · unfold Main.loadScene; rw [dif_neg hn]
    · unfold Var.loadScene; rw [dif_neg hn]
  · intro h
    refine ⟨?_, ?_, ?_, ?_⟩ <;>
      simp only [Main.loadScene, Var.loadScene, dif_pos h]

/-- Witness for C6: with a one-entry catalog whose entry is already active,
re-selecting index 0 issues a fresh decode request, and selecting index 5 is
a no-op. -/
theorem c6_selectScene_guard_witness :
    (Main.loadScene (Main.handleFileUpload appInit [jpgFileA]) 0).issuedDecodes
      = (Main.handleFileUpload appInit [jpgFileA]).issuedDecodes
        ++ [mkRequest ((Main.handleFileUpload appInit [jpgFileA]).scenes.get
              ⟨0, by decide⟩)]
    ∧ Main.loadScene (Main.handleFileUpload appInit [jpgFileA]) 5
        = Main.handleFileUpload appInit [jpgFileA] := by
  have h0 := c6_selectScene_guard (Main.handleFileUpload appInit [jpgFileA]) 0
  have h5 := c6_selectScene_guard (Main.handleFileUpload appInit [jpgFileA]) 5
  exact ⟨(h0.2 (by decide)).2.1, (h5.1 (by decide)).1⟩

/-! ## Decode success (C7) -/

/-- C7 counterexample: on the main.js HDR success path, a texture arriving
with the loader default `UVMapping` is placed on the surface unchanged — it
is not configured for equirectangular sampling, refuting the claim that the
configuration happens on the HDR path in both variants. -/
theorem c7_hdr_mapping_counterexample :
    surfaceMappingOf (Main.onLoadHdr appInit rawTex) = some Mapping.uv
    ∧ Mapping.uv ≠ Mapping.equirectangular := by decide

/-- C7 amended: on every successful decode the surface is rebuilt with the
decoded texture and the loading indicator is cleared, in both variants and on
both paths (the replace variant also clears the transition overlay); the
texture is configured with equirectangular mapping and sRGB color space on
the generic-image path of both variants; on the HDR path the replace variant
sets equirectangular mapping only, and main.js passes the texture through
unmodified. -/
theorem c7_success_rebuild_amended (st : AppState) (t : Texture) :
    surfaceMapOf (Main.onLoadGeneric st t)
        = some { t with mapping := Mapping.equirectangular,
                        colorSpace := ColorSpace.srgb }
  ∧ (Main.onLoadGeneric st t).loadingShown = false
  ∧ surfaceMapOf (Main.onLoadHdr st t) = some t
  ∧ (Main.onLoadHdr st t).loadingShown = false
  ∧ surfaceMapOf (Var.onLoadGeneric st t)
        = some { t with mapping := Mapping.equirectangular,
                        colorSpace := ColorSpace.srgb }
  ∧ (Var.onLoadGeneric st t).loadingShown = false
  ∧ (Var.onLoadGeneric st t).transitionActive = false
  ∧ surfaceMapOf (Var.onLoadHdr st t)
        = some { t with mapping := Mapping.equirectangular }
  ∧ (Var.onLoadHdr st t).loadingShown = false
  ∧ (Var.onLoadHdr st t).transitionActive = false :=
  ⟨rfl, rfl, rfl, rfl, rfl, rfl, rfl, rfl, rfl, rfl⟩

/-! ## Timer capture in the replace variant (C10) -/

/-- C10: the replace variant's `loadScene` issues no decode itself — it only
schedules a 500ms timer carrying the entry captured at call time; when a
scheduled timer fires, the decode request is built solely from the captured
entry (name, url, decoder choice), whatever the catalog holds by then. The
final conjunct runs the concrete race: add file A, then replace with file B
while A's timer is pending — A's url 0 is revoked by the replacement, and the
decode that then fires still targets url 0, a stale revoked handle. -/
theorem c10_capture_and_delay (st : AppState) (i : Int)
    (h : 0 ≤ i ∧ i < (st.scenes.length : Int))
    (st2 : AppState) (e : SceneEntry) (d : Nat) (rest : List (SceneEntry × Nat))
    (hp : st2.pendingTimers = (e, d) :: rest) :
    (Var.loadScene st i).issuedDecodes = st.issuedDecodes
  ∧ (Var.loadScene st i).pendingTimers
      = st.pendingTimers ++ [(st.scenes.get ⟨i.toNat, by omega⟩, 500)]
  ∧ (Var.fireTimer st2).issuedDecodes = st2.issuedDecodes ++ [mkRequest e]
  ∧ (Var.fireTimer st2).pendingTimers = rest
  ∧ (Var.fireTimer (Var.handleFileUpload
        (Var.handleFileUpload appInit [jpgFileA]) [jpgFileB])).issuedDecodes
      = [{ name := "Scene 1", url := 0, path := DecodePath.generic }]
  ∧ (0 : Nat) ∈ (Var.handleFileUpload
        (Var.handleFileUpload appInit [jpgFileA]) [jpgFileB]).revokedUrls := by
  refine ⟨?_, ?_, ?_, ?_, by decide, by decide⟩
  · simp only [Var.loadScene, dif_pos h]
  · simp only [Var.loadScene, dif_pos h]
  · simp only [Var.fireTimer, hp]
  · simp only [Var.fireTimer, hp]

/-- Witness for C10 at the concrete one-file state: the pending timer holds
the captured `Scene 1` entry and firing it issues its decode. -/
theorem c10_capture_and_delay_witness :
    (Var.fireTimer (Var.handleFileUpload appInit [jpgFileA])).issuedDecodes
      = (Var.handleFileUpload appInit [jpgFileA]).issuedDecodes
        ++ [mkRequest { name := "Scene 1", file := jpgFileA, url := 0 }] := by
  have h := c10_capture_and_delay (Var.handleFileUpload appInit [jpgFileA]) 0
    (by decide) (Var.handleFileUpload appInit [jpgFileA])
    { name := "Scene 1", file := jpgFileA, url := 0 } 500 [] (by decide)
  exact h.2.2.1

/-! ## Catalog updates (C4, C9) -/

lemma var_upload_normal (st : AppState) (files : List SrcFile)
    (hne : ¬ files.isEmpty) :
    Var.handleFileUpload st files =
      Var.loadScene
        { st with
          scenes := files.mapIdx (fun i f =>
            { name := "Scene " ++ toString (i + 1), file := f,
              url := st.nextUrl + i })
          currentSceneIndex :=
            if st.scenes.length > 0 then -1 else st.currentSceneIndex
          revokedUrls := st.revokedUrls ++ st.scenes.map (fun e => e.url)
          nextUrl := st.nextUrl + files.length } 0 := by
  unfold Var.handleFileUpload
  rw [if_neg hne]
  rcases Nat.eq_zero_or_pos st.scenes.length with h0 | h0
  · have hnil : st.scenes = [] := List.length_eq_zero.mp h0
    simp [hnil]
  · rw [if_pos h0]
    simp [h0]

lemma var_upload_closed (st : AppState) (files : List SrcFile)
    (hne : files ≠ []) :
    Var.handleFileUpload st files =
      { st with
        scenes := files.mapIdx (fun i f =>
          { name := "Scene " ++ toString (i + 1), file := f,
            url := st.nextUrl + i })
        currentSceneIndex := 0
        revokedUrls := st.revokedUrls ++ st.scenes.map (fun e => e.url)
        nextUrl := st.nextUrl + files.length
        transitionActive := true
        pendingTimers := st.pendingTimers ++
          [({ name := "Scene " ++ toString 1,
              file := files.get ⟨0, List.length_pos.mpr hne⟩,
              url := st.nextUrl }, 500)] } := by
  rw [var_upload_normal st files (by simp [hne])]
  unfold Var.loadScene
  rw [dif_pos (by
    refine ⟨le_refl 0, ?_⟩
    have := List.length_pos.mpr hne
    simp [List.length_mapIdx]
    omega)]
  simp [List.get_eq_getElem, List.getElem_mapIdx]

/-- C4: replace-policy `addFiles` with a non-empty batch: every existing
entry's object URL ends up revoked and no old entry survives — the catalog
afterwards has exactly one entry per file of the batch, in input order, with
synthetic names `Scene N` and fresh urls — `activeIndex` is 0, and a load of
the first new entry is scheduled. -/
theorem c4_replace_addFiles (st : AppState) (files : List SrcFile)
    (hne : files ≠ []) :
    (Var.handleFileUpload st files).scenes.length = files.length
  ∧ (∀ e ∈ st.scenes, e.url ∈ (Var.handleFileUpload st files).revokedUrls)
  ∧ (∀ i (hi : i < files.length)
        (hi2 : i < (Var.handleFileUpload st files).scenes.length),
        (Var.handleFileUpload st files).scenes.get ⟨i, hi2⟩
          = { name := "Scene " ++ toString (i + 1), file := files.get ⟨i, hi⟩,
              url := st.nextUrl + i })
  ∧ (Var.handleFileUpload st files).currentSceneIndex = 0
  ∧ (Var.handleFileUpload st files).pendingTimers
      = st.pendingTimers ++
        [({ name := "Scene " ++ toString 1,
            file := files.get ⟨0, List.length_pos.mpr hne⟩,
            url := st.nextUrl }, 500)] := by
  rw [var_upload_closed st files hne]
  refine ⟨by simp [List.length_mapIdx], ?_, ?_, rfl, rfl⟩
  · intro e he
    simp only [List.mem_append]
    exact Or.inr (List.mem_map_of_mem _ he)
  · intro i hi hi2
    simp [List.get_eq_getElem, List.getElem_mapIdx]

/-- Witness for C4: after adding batch A (two files) and then batch B (one
file), the catalog has length 1, index 0 is active, and A's first url (0) has
been revoked. -/
theorem c4_replace_addFiles_witness :
    (Var.handleFileUpload (Var.handleFileUpload appInit [jpgFileA, jpgFileB])
        [jpgFileB]).scenes.length = 1
    ∧ ({ name := "Scene " ++ toString 1, file := jpgFileA, url := 0
          : SceneEntry }).url
        ∈ (Var.handleFileUpload (Var.handleFileUpload appInit
            [jpgFileA, jpgFileB]) [jpgFileB]).revokedUrls := by
  have h := c4_replace_addFiles
    (Var.handleFileUpload appInit [jpgFileA, jpgFileB]) [jpgFileB] (by decide)
  exact ⟨h.1, h.2.1 _ (by decide)⟩

lemma main_loadScene_scenes (st : AppState) (i : Int) :
    (Main.loadScene st i).scenes = st.scenes := by
  unfold Main.loadScene
  split <;> rfl

/-- C9: append-policy `addFiles` with a non-empty batch: the existing entries
are unchanged, the new entries (named by their filenames, with fresh urls)
are appended after them in input order; the first newly-added entry becomes
active and its decode is issued exactly when nothing was active before
(`activeIndex = -1`), otherwise the active index and the issued decodes are
unchanged. -/
theorem c9_append_addFiles (st : AppState) (files : List SrcFile)
    (hne : files ≠ []) :
    (Main.handleFileUpload st files).scenes.length
        = st.scenes.length + files.length
  ∧ (∀ i (hi : i < st.scenes.length)
        (hi2 : i < (Main.handleFileUpload st files).scenes.length),
        (Main.handleFileUpload st files).scenes.get ⟨i, hi2⟩
          = st.scenes.get ⟨i, hi⟩)
  ∧ (∀ i (hi : i < files.length)
        (hi2 : st.scenes.length + i
          < (Main.handleFileUpload st files).scenes.length),
        (Main.handleFileUpload st files).scenes.get ⟨st.scenes.length + i, hi2⟩
          = { name := (files.get ⟨i, hi⟩).name, file := files.get ⟨i, hi⟩,
              url := st.nextUrl + i })
  ∧ (st.currentSceneIndex = -1 →
        (Main.handleFileUpload st files).currentSceneIndex
            = (st.scenes.length : Int)
      ∧ (Main.handleFileUpload st files).issuedDecodes
            = st.issuedDecodes ++
              [mkRequest
                { name := (files.get ⟨0, List.length_pos.mpr hne⟩).name,
                  file := files.get ⟨0, List.length_pos.mpr hne⟩,
                  url := st.nextUrl }])
  ∧ (st.currentSceneIndex ≠ -1 →
        (Main.handleFileUpload st files).currentSceneIndex
            = st.currentSceneIndex
      ∧ (Main.handleFileUpload st files).issuedDecodes = st.issuedDecodes) := by
  have hne' : ¬ files.isEmpty := by simp [hne]
  have hlen : 0 < files.length := List.length_pos.mpr hne
  unfold Main.handleFileUpload
  rw [if_neg hne']
  by_cases hidx : st.currentSceneIndex = -1
  · rw [if_pos hidx]
    rw [show ((st.scenes.length : Int)) = ((st.scenes.length : Nat) : Int) from rfl]
    refine ⟨?_, ?_, ?_, ?_, ?_⟩
    · simp [main_loadScene_scenes, List.length_mapIdx]
    · intro i hi hi2
      simp only [List.get_eq_getElem, main_loadScene_scenes]
      simp [List.getElem_append_left hi]
    · intro i hi hi2
      simp only [List.get_eq_getElem, main_loadScene_scenes]
      rw [List.getElem_append_right (by omega)]
      simp [List.getElem_mapIdx]
    · intro _
      unfold Main.loadScene
      rw [dif_pos (by
        constructor
        · omega
        · simp [List.length_mapIdx]
          omega)]
      constructor
      · rfl
      · simp only [List.get_eq_getElem, Int.toNat_natCast]
        rw [List.getElem_append_right (by omega)]
        simp [List.getElem_mapIdx]
    · intro hn
      exact absurd hidx hn
  · rw [if_neg hidx]
    refine ⟨by simp [List.length_mapIdx], ?_, ?_, ?_, ?_⟩
    · intro i hi hi2
      simp [List.get_eq_getElem, List.getElem_append_left hi]
    · intro i hi hi2
      simp only [List.get_eq_getElem]
      rw [List.getElem_append_right (by omega)]
      simp [List.getElem_mapIdx]
    · intro hc
      exact absurd hc hidx
    · intro _
      exact ⟨rfl, rfl⟩

/-- Witness for C9: adding a file to the fresh (empty, nothing active)
catalog makes the new entry active at index 0 and issues its decode; adding a
second file afterwards leaves index 0 active and issues nothing. -/
theorem c9_append_addFiles_witness :
    (Main.handleFileUpload appInit [jpgFileA]).currentSceneIndex = 0
    ∧ (Main.handleFileUpload (Main.handleFileUpload appInit [jpgFileA])
        [jpgFileB]).issuedDecodes
      = (Main.handleFileUpload appInit [jpgFileA]).issuedDecodes := by
  have h1 := c9_append_addFiles appInit [jpgFileA] (by decide)
  have h2 := c9_append_addFiles (Main.handleFileUpload appInit [jpgFileA])
    [jpgFileB] (by decide)
  exact ⟨(h1.2.2.2.1 (by decide)).1, (h2.2.2.2.2 (by decide)).2⟩

/-! ## Catalog invariant (C8) -/

lemma catalogInv_transport {st r : AppState} (hs : r.scenes = st.scenes)
    (hc : r.currentSceneIndex = st.currentSceneIndex)
    (h : CatalogInv st) : CatalogInv r := by
  unfold CatalogInv at *
  rw [hs, hc]
  exact h

lemma createSphere_catalog (st : AppState) (t : Option Texture) :
    (createSphere st t).scenes = st.scenes
    ∧ (createSphere st t).currentSceneIndex = st.currentSceneIndex := by
  rcases hm : st.sphereMesh with _ | m <;> simp [createSphere, hm]

lemma catalogInv_of_neg_one {r : AppState} (hc : r.currentSceneIndex = -1) :
    CatalogInv r := by
  refine ⟨?_, ?_⟩ <;> rw [hc]
  omega

lemma catalogInv_of_in_range {r : AppState} {i : Int}
    (hc : r.currentSceneIndex = i) (h0 : 0 ≤ i)
    (hlt : i < (r.scenes.length : Int)) : CatalogInv r := by
  refine ⟨?_, ?_⟩ <;> rw [hc] <;> omega

lemma catalogInv_grow {st r : AppState} (h : CatalogInv st)
    (hc : r.currentSceneIndex = st.currentSceneIndex)
    (hlen : st.scenes.length ≤ r.scenes.length) : CatalogInv r := by
  obtain ⟨h1, h2⟩ := h
  unfold CatalogInv
  rw [hc]
  omega

lemma catalogInv_loadScene_main (st : AppState) (i : Int)
    (h : CatalogInv st) : CatalogInv (Main.loadScene st i) := by
  unfold Main.loadScene
  split
  case isTrue hc => exact catalogInv_of_in_range rfl hc.1 hc.2
  case isFalse => exact h

lemma catalogInv_loadScene_var (st : AppState) (i : Int)
    (h : CatalogInv st) : CatalogInv (Var.loadScene st i) := by
  unfold Var.loadScene
  split
  case isTrue hc => exact catalogInv_of_in_range rfl hc.1 hc.2
  case isFalse => exact h

/-- C8: the Scene Catalog invariant `-1 <= activeIndex < length` holds in the
initial state and is preserved by every operation of both variants:
`addFiles` under either policy, `selectScene` with any index, the replace
variant's load timer, and decode success and failure on every path. -/
theorem c8_catalog_invariant_preserved :
    CatalogInv appInit
  ∧ (∀ st i, CatalogInv st → CatalogInv (Main.loadScene st i))
  ∧ (∀ st i, CatalogInv st → CatalogInv (Var.loadScene st i))
  ∧ (∀ st files, CatalogInv st → CatalogInv (Main.handleFileUpload st files))
  ∧ (∀ st files, CatalogInv st → CatalogInv (Var.handleFileUpload st files))
  ∧ (∀ st, CatalogInv st → CatalogInv (Var.fireTimer st))
  ∧ (∀ st t, CatalogInv st → CatalogInv (Main.onLoadGeneric st t))
  ∧ (∀ st t, CatalogInv st → CatalogInv (Main.onLoadHdr st t))
  ∧ (∀ st t, CatalogInv st → CatalogInv (Var.onLoadGeneric st t))
  ∧ (∀ st t, CatalogInv st → CatalogInv (Var.onLoadHdr st t))
  ∧ (∀ st err, CatalogInv st → CatalogInv (Main.onError st err))
  ∧ (∀ st err, CatalogInv st → CatalogInv (Var.onError st err)) := by
  refine ⟨⟨by decide, by decide⟩, catalogInv_loadScene_main,
    catalogInv_loadScene_var, ?_, ?_, ?_, ?_, ?_, ?_, ?_, ?_, ?_⟩
  · intro st files h
    unfold Main.handleFileUpload
    split
    case isTrue => exact h
    case isFalse hne =>
      by_cases hidx : st.currentSceneIndex = -1
      · rw [if_pos hidx]
        exact catalogInv_loadScene_main _ _ (catalogInv_of_neg_one hidx)
      · rw [if_neg hidx]
        exact catalogInv_grow h rfl (by simp)
  · intro st files h
    rcases heq : files with _ | ⟨f, rest⟩
    · exact h
    · rw [var_upload_closed st (f :: rest) (by simp)]
      exact catalogInv_of_in_range rfl (le_refl 0)
        (by simp [List.length_mapIdx])
  · intro st h
    unfold Var.fireTimer
    rcases hp : st.pendingTimers with _ | ⟨⟨e, d⟩, rest⟩
    · exact h
    · exact catalogInv_transport rfl rfl h
  · intro st t h
    have hc := createSphere_catalog st
      (some { t with mapping := Mapping.equirectangular,
                     colorSpace := ColorSpace.srgb })
    exact @catalogInv_transport st (Main.onLoadGeneric st t) hc.1 hc.2 h
  · intro st t h
    have hc := createSphere_catalog st (some t)
    exact @catalogInv_transport st (Main.onLoadHdr st t) hc.1 hc.2 h
  · intro st t h
    have hc := createSphere_catalog st
      (some { t with mapping := Mapping.equirectangular,
                     colorSpace := ColorSpace.srgb })
    exact @catalogInv_transport st (Var.onLoadGeneric st t) hc.1 hc.2 h
  · intro st t h
    have hc := createSphere_catalog st
      (some { t with mapping := Mapping.equirectangular })
    exact @catalogInv_transport st (Var.onLoadHdr st t) hc.1 hc.2 h
  · intro st err h
    exact catalogInv_transport rfl rfl h
  · intro st err h
    exact catalogInv_transport rfl rfl h

/-- Witness for C8: the invariant holds concretely after an append-variant
upload into the initial state, derived through the preservation theorem. -/
theorem c8_catalog_invariant_preserved_witness :
    CatalogInv (Main.handleFileUpload appInit [jpgFileA]) := by
  have h := c8_catalog_invariant_preserved
  exact h.2.2.2.1 appInit [jpgFileA] h.1

/-! ## Panorama Surface resource safety (C5) -/

lemma createSphere_none (st : AppState) (o : Option Texture)
    (hsm : st.sphereMesh = none) :
    createSphere st o =
      { st with
        sphereMesh := some
          { geometryId := st.nextGeom, materialId := st.nextMat, map := o
            color := if o.isSome then 0xffffff else 0x333333 }
        nextGeom := st.nextGeom + 1
        nextMat := st.nextMat + 1 } := by
  unfold createSphere
  rw [hsm]

lemma createSphere_some (st : AppState) (o : Option Texture) (mesh : Sphere)
    (hsm : st.sphereMesh = some mesh) :
    createSphere st o =
      { st with
        disposedGeoms := st.disposedGeoms ++ [mesh.geometryId]
        disposedMats := st.disposedMats ++ [mesh.materialId]
        disposedTexs := st.disposedTexs ++
          (match mesh.map with | some t => [t.id] | none => [])
        sphereMesh := some
          { geometryId := st.nextGeom, materialId := st.nextMat, map := o
            color := if o.isSome then 0xffffff else 0x333333 }
        nextGeom := st.nextGeom + 1
        nextMat := st.nextMat + 1 } := by
  unfold createSphere
  rw [hsm]

lemma texIds_cons (o : Option Texture) (ts : List (Option Texture)) :
    texIds (o :: ts) = texIds [o] ++ texIds ts := by
  cases o <;> simp [texIds]

lemma meshGeom_new (st1 : AppState) (s : Sphere)
    (h : st1.sphereMesh = some s) : meshGeom st1 = some s.geometryId := by
  rw [meshGeom, h]
  rfl

lemma meshMat_new (st1 : AppState) (s : Sphere)
    (h : st1.sphereMesh = some s) : meshMat st1 = some s.materialId := by
  rw [meshMat, h]
  rfl

lemma meshTexId_new (st1 : AppState) (s : Sphere)
    (h : st1.sphereMesh = some s) :
    meshTexId st1 = s.map.map (fun t => t.id) := by
  rw [meshTexId, surfaceMapOf, h]
  rfl

lemma texIds_some_single (tx : Texture) : texIds [some tx] = [tx.id] := rfl

lemma texIds_none_single : texIds [(none : Option Texture)] = [] := rfl

lemma surfInv_step (st : AppState) (supplied : List Nat) (o : Option Texture)
    (hInv : SurfInv st supplied)
    (hfresh : ∀ t ∈ texIds [o], t ∉ supplied) :
    SurfInv (createSphere st o) (supplied ++ texIds [o]) := by
  obtain ⟨hg, hm, ht, hG, hM, hT⟩ := hInv
  rcases hsm : st.sphereMesh with _ | mesh
  case none =>
    rw [createSphere_none st o hsm]
    have hGnone : ∀ g, ¬ (g < st.nextGeom ∧ g ∉ st.disposedGeoms) := by
      intro g hgl
      have hthis := (hG g).mp hgl
      rw [meshGeom, hsm] at hthis
      simp at hthis
    have hMnone : ∀ m, ¬ (m < st.nextMat ∧ m ∉ st.disposedMats) := by
      intro m hml
      have hthis := (hM m).mp hml
      rw [meshMat, hsm] at hthis
      simp at hthis
    have hTnone : ∀ t, ¬ (t ∈ supplied ∧ t ∉ st.disposedTexs) := by
      intro t htl
      have hthis := (hT t).mp htl
      rw [meshTexId, surfaceMapOf, hsm] at hthis
      simp at hthis
    refine ⟨?_, ?_, ?_, ?_, ?_, ?_⟩
    · intro g hmem
      have := hg g hmem
      dsimp only
      omega
    · intro m hmem
      have := hm m hmem
      dsimp only
      omega
    · intro t hmem
      exact List.mem_append_left _ (ht t hmem)
    · intro g
      rw [meshGeom_new _ _ rfl, Option.some_inj]
      dsimp only
      constructor
      · rintro ⟨hlt, hnot⟩
        by_contra hne
        exact hGnone g ⟨by omega, hnot⟩
      · rintro rfl
        exact ⟨by omega, fun hmem => by have := hg _ hmem; omega⟩
    · intro m
      rw [meshMat_new _ _ rfl, Option.some_inj]
      dsimp only
      constructor
      · rintro ⟨hlt, hnot⟩
        by_contra hne
        exact hMnone m ⟨by omega, hnot⟩
      · rintro rfl
        exact ⟨by omega, fun hmem => by have := hm _ hmem; omega⟩
    · intro t
      rw [meshTexId_new _ _ rfl]
      dsimp only
      rcases o with _ | tx
      · rw [texIds_none_single, List.append_nil]
        constructor
        · rintro ⟨hmem, hnot⟩
          exact absurd ⟨hmem, hnot⟩ (hTnone t)
        · intro hfalse
          simp at hfalse
      · rw [texIds_some_single]
        have hfr : tx.id ∉ supplied := hfresh tx.id
          (by rw [texIds_some_single]; exact List.mem_singleton_self _)
        rw [show ((some tx).map (fun u => u.id)) = some tx.id from rfl,
          Option.some_inj]
        constructor
        · rintro ⟨hmem, hnot⟩
          rcases List.mem_append.mp hmem with hs | hself
          · exact (hTnone t ⟨hs, hnot⟩).elim
          · exact (List.mem_singleton.mp hself).symm
        · rintro rfl
          exact ⟨List.mem_append_right _ (List.mem_singleton_self _),
                 fun hmem => hfr (ht _ hmem)⟩
  case some =>
    rw [createSphere_some st o mesh hsm]
    have hgeo : mesh.geometryId < st.nextGeom
        ∧ mesh.geometryId ∉ st.disposedGeoms :=
      (hG mesh.geometryId).mpr (meshGeom_new st mesh hsm)
    have hmat : mesh.materialId < st.nextMat
        ∧ mesh.materialId ∉ st.disposedMats :=
      (hM mesh.materialId).mpr (meshMat_new st mesh hsm)
    refine ⟨?_, ?_, ?_, ?_, ?_, ?_⟩
    · intro g hmem
      dsimp only at hmem ⊢
      rcases List.mem_append.mp hmem with hold | hnew
      · have := hg g hold
        omega
      · have hid : g = mesh.geometryId := List.mem_singleton.mp hnew
        omega
    · intro m hmem
      dsimp only at hmem ⊢
      rcases List.mem_append.mp hmem with hold | hnew
      · have := hm m hold
        omega
      · have hid : m = mesh.materialId := List.mem_singleton.mp hnew
        omega
    · intro t hmem
      dsimp only at hmem ⊢
      rcases List.mem_append.mp hmem with hold | hnew
      · exact List.mem_append_left _ (ht t hold)
      · rcases hmm : mesh.map with _ | mt
        · rw [hmm] at hnew
          simp at hnew
        · rw [hmm] at hnew
          have hid : t = mt.id := List.mem_singleton.mp hnew
          have hsome : meshTexId st = some mt.id := by
            rw [meshTexId_new st mesh hsm, hmm]
            rfl
          have hin := ((hT mt.id).mpr hsome).1
          rw [hid]
          exact List.mem_append_left _ hin
    · intro g
      rw [meshGeom_new _ _ rfl, Option.some_inj]
      dsimp only
      constructor
      · rintro ⟨hlt, hnot⟩
        rw [List.mem_append] at hnot
        push_neg at hnot
        by_contra hne
        have hlive := (hG g).mp ⟨by omega, hnot.1⟩
        rw [meshGeom_new st mesh hsm, Option.some_inj] at hlive
        exact absurd hlive.symm (by simpa using hnot.2)
      · rintro rfl
        refine ⟨by omega, ?_⟩
        rw [List.mem_append]
        rintro (hmem | hmem)
        · have := hg _ hmem
          omega
        · have := List.mem_singleton.mp hmem
          omega
    · intro m
      rw [meshMat_new _ _ rfl, Option.some_inj]
      dsimp only
      constructor
      · rintro ⟨hlt, hnot⟩
        rw [List.mem_append] at hnot
        push_neg at hnot
        by_contra hne
        have hlive := (hM m).mp ⟨by omega, hnot.1⟩
        rw [meshMat_new st mesh hsm, Option.some_inj] at hlive
        exact absurd hlive.symm (by simpa using hnot.2)
      · rintro rfl
        refine ⟨by omega, ?_⟩
        rw [List.mem_append]
        rintro (hmem | hmem)
        · have := hm _ hmem
          omega
        · have := List.mem_singleton.mp hmem
          omega
    · intro t
      rw [meshTexId_new _ _ rfl]
      dsimp only
      rcases hmm : mesh.map with _ | mt
      case none =>
        have hTnone2 : ∀ u, ¬ (u ∈ supplied ∧ u ∉ st.disposedTexs) := by
          intro u hu
          have hsome := (hT u).mp hu
          rw [meshTexId_new st mesh hsm, hmm] at hsome
          simp at hsome
        dsimp only
        rw [List.append_nil]
        rcases o with _ | tx
        · rw [texIds_none_single, List.append_nil]
          constructor
          · rintro ⟨hmem, hnot⟩
            exact absurd ⟨hmem, hnot⟩ (hTnone2 t)
          · intro hfalse
            simp at hfalse
        · rw [texIds_some_single]
          have hfr : tx.id ∉ supplied := hfresh tx.id
            (by rw [texIds_some_single]; exact List.mem_singleton_self _)
          rw [show ((some tx).map (fun u => u.id)) = some tx.id from rfl,
            Option.some_inj]
          constructor
          · rintro ⟨hmem, hnot⟩
            rcases List.mem_append.mp hmem with hs | hself
            · exact (hTnone2 t ⟨hs, hnot⟩).elim
            · exact (List.mem_singleton.mp hself).symm
          · rintro rfl
            exact ⟨List.mem_append_right _ (List.mem_singleton_self _),
                   fun hmem => hfr (ht _ hmem)⟩
      case some =>
        have hold : mt.id ∈ supplied ∧ mt.id ∉ st.disposedTexs := by
          refine (hT mt.id).mpr ?_
          rw [meshTexId_new st mesh hsm, hmm]
          rfl
        dsimp only
        rcases o with _ | tx
        · rw [texIds_none_single, List.append_nil]
          constructor
          · rintro ⟨hmem, hnot⟩
            rw [List.mem_append] at hnot
            push_neg at hnot
            have hsome := (hT t).mp ⟨hmem, hnot.1⟩
            rw [meshTexId_new st mesh hsm, hmm] at hsome
            have hid : mt.id = t := by simpa using hsome
            exact absurd hid.symm (by simpa using hnot.2)
          · intro hfalse
            simp at hfalse
        · rw [texIds_some_single]
          have hfr : tx.id ∉ supplied := hfresh tx.id
            (by rw [texIds_some_single]; exact List.mem_singleton_self _)
          rw [show ((some tx).map (fun u => u.id)) = some tx.id from rfl,
            Option.some_inj]
          constructor
          · rintro ⟨hmem, hnot⟩
            rw [List.mem_append] at hnot
            push_neg at hnot
            rcases List.mem_append.mp hmem with hs | hself
            · have hsome := (hT t).mp ⟨hs, hnot.1⟩
              rw [meshTexId_new st mesh hsm, hmm] at hsome
              have hid : mt.id = t := by simpa using hsome
              exact absurd hid.symm (by simpa using hnot.2)
            · exact (List.mem_singleton.mp hself).symm
          · rintro rfl
            refine ⟨List.mem_append_right _ (List.mem_singleton_self _), ?_⟩
            rw [List.mem_append]
            rintro (hmem | hmem)
            · exact hfr (ht _ hmem)
            · have hid : tx.id = mt.id := List.mem_singleton.mp hmem
              exact hfr (by rw [hid]; exact hold.1)

lemma surfInv_run (ts : List (Option Texture)) (st : AppState)
    (supplied : List Nat) (hInv : SurfInv st supplied)
    (hfresh : ∀ t ∈ texIds ts, t ∉ supplied)
    (hnd : (texIds ts).Nodup) :
    SurfInv (runRebuilds st ts) (supplied ++ texIds ts) := by
  induction ts generalizing st supplied with
  | nil => simpa [texIds, runRebuilds] using hInv
  | cons o rest ih =>
      have hstep := surfInv_step st supplied o hInv (fun t htm =>
        hfresh t (by rw [texIds_cons]; exact List.mem_append_left _ htm))
      rw [texIds_cons] at hfresh hnd
      have hrest : ∀ t ∈ texIds rest, t ∉ supplied ++ texIds [o] := by
        intro t htm
        simp only [List.mem_append]
        rintro (hs | hself)
        · exact hfresh t (List.mem_append_right _ htm) hs
        · exact (List.disjoint_of_nodup_append hnd) hself htm
      have hnd' : (texIds rest).Nodup := hnd.of_append_right
      have hrun := ih (createSphere st o) (supplied ++ texIds [o]) hstep
        hrest hnd'
      rw [texIds_cons]
      simpa [runRebuilds, List.append_assoc] using hrun

/-- C5: across any sequence of Panorama Surface rebuilds (with or without
textures, the supplied textures being fresh), at most one mesh/material/
texture set is live at any time: an allocated geometry (resp. material,
supplied texture) is undisposed exactly when the current mesh owns it.
Additionally, a single rebuild over an existing mesh disposes exactly that
mesh's geometry, material and texture map (when present), and a rebuild
without a texture produces the flat neutral `0x333333` fill. -/
theorem c5_surface_resource_safety (ts : List (Option Texture))
    (hnd : (texIds ts).Nodup) :
    (∀ g, (g < (runRebuilds blankState ts).nextGeom
            ∧ g ∉ (runRebuilds blankState ts).disposedGeoms)
        ↔ meshGeom (runRebuilds blankState ts) = some g)
  ∧ (∀ m, (m < (runRebuilds blankState ts).nextMat
            ∧ m ∉ (runRebuilds blankState ts).disposedMats)
        ↔ meshMat (runRebuilds blankState ts) = some m)
  ∧ (∀ t, (t ∈ texIds ts ∧ t ∉ (runRebuilds blankState ts).disposedTexs)
        ↔ meshTexId (runRebuilds blankState ts) = some t)
  ∧ (∀ st old tex, st.sphereMesh = some old →
        (createSphere st tex).disposedGeoms
            = st.disposedGeoms ++ [old.geometryId]
      ∧ (createSphere st tex).disposedMats
            = st.disposedMats ++ [old.materialId]
      ∧ (createSphere st tex).disposedTexs
            = st.disposedTexs ++
              (match old.map with | some t => [t.id] | none => []))
  ∧ (∀ st, meshColor (createSphere st none) = some 0x333333) := by
  have h0 : SurfInv blankState [] := by
    refine ⟨?_, ?_, ?_, ?_, ?_, ?_⟩ <;>
      simp [blankState, meshGeom, meshMat, meshTexId, surfaceMapOf]
  have h := surfInv_run ts blankState [] h0 (by simp) hnd
  rw [List.nil_append] at h
  obtain ⟨_, _, _, hG, hM, hT⟩ := h
  refine ⟨hG, hM, hT, ?_, ?_⟩
  · intro st old tex hsm
    rw [createSphere_some st tex old hsm]
    exact ⟨rfl, rfl, rfl⟩
  · intro st
    rcases hsm : st.sphereMesh with _ | mesh
    · rw [createSphere_none st none hsm]
      rfl
    · rw [createSphere_some st none mesh hsm]
      rfl

/-- Witness for C5 at a concrete two-rebuild sequence (one textured, one
bare): geometry 1 of the second rebuild is the only live geometry. -/
theorem c5_surface_resource_safety_witness :
    (1 < (runRebuilds blankState [some rawTex, none]).nextGeom
      ∧ 1 ∉ (runRebuilds blankState [some rawTex, none]).disposedGeoms)
    ↔ meshGeom (runRebuilds blankState [some rawTex, none]) = some 1 :=
  (c5_surface_resource_safety [some rawTex, none] (by decide)).1 1

end Viewer
